import Mathlib

/- A shallow embedding of the core logic of the Pyfinance repository:
   the watchlist reconciler (src/core/watchlist.py), the view builder
   (src/jobs/build_views.py), the dashboard analytics query
   (src/app/dashboard.py) and the alert candidate query (src/app/alerts.py).

   Modelling conventions: numeric observation values and zone bounds
   (SQL DOUBLE) are modelled as rationals, timestamps as naturals and
   SQL NULL as Option.  SQL window functions are embedded by an explicit
   walk over the partition in window order, and the LEFT JOIN by an
   explicit per-row match list. -/

namespace Pyfinance

/-- One normalized price observation row, as produced by
    write_partitioned_parquet in src/jobs/fetch_daily.py:
    columns Ticker, Datetime, Date, Price, Value. -/
structure Obs where
  ticker : String
  datetime : Nat
  date : String
  price : String
  value : Rat
deriving DecidableEq, Repr

/-- A declared watch item (dataclass WatchItem in src/core/watchlist.py).
    tags is the comma-joined flattened string, as in the source. -/
structure WatchItem where
  ticker : String
  currency : String
  zone_low : Rat
  zone_high : Rat
  notify_on_cross : Bool
  cooloff_days : Int
  tags : String
  notes : String
deriving DecidableEq, Repr

/-- A persisted row of the DuckDB watchlist table (ensure_schema in
    src/core/watchlist.py).  The updated_at wall-clock timestamp is the one
    column not modelled; no claim mentions it. -/
structure DbRow where
  ticker : String
  currency : String
  zone_low : Rat
  zone_high : Rat
  notify_on_cross : Bool
  cooloff_days : Int
  tags : String
  notes : String
deriving DecidableEq, Repr

/- ## Dashboard query (load_dashboard_rows in src/app/dashboard.py)

   WITH prices AS (SELECT * FROM read_parquet(...)),
   ranked AS (
     SELECT Ticker, Datetime, Date, Value,
            LAG(Value)     OVER (PARTITION BY Ticker ORDER BY Datetime DESC),
            ROW_NUMBER()   OVER (PARTITION BY Ticker ORDER BY Datetime DESC)
     FROM prices WHERE Price = 'Close'),
   latest AS (SELECT * FROM ranked WHERE rn = 1)
   SELECT ... FROM watchlist w LEFT JOIN latest l ON l.ticker = w.ticker -/

/-- The rows of one window partition before ordering: the Close rows
    (WHERE Price = 'Close') of one ticker (PARTITION BY Ticker). -/
def closesFor (obs : List Obs) (t : String) : List Obs :=
  obs.filter fun o => o.price == "Close" && o.ticker == t

/-- ORDER BY Datetime DESC. -/
def byDatetimeDesc (a b : Obs) : Prop := b.datetime ≤ a.datetime

instance : DecidableRel byDatetimeDesc :=
  fun a b => Nat.decLe b.datetime a.datetime

instance : IsTotal Obs byDatetimeDesc :=
  ⟨fun a b => Nat.le_total b.datetime a.datetime⟩

instance : IsTrans Obs byDatetimeDesc :=
  ⟨fun _ _ _ hab hbc => Nat.le_trans hbc hab⟩

/-- One partition of the ranked CTE in window order (Datetime descending;
    ties resolved deterministically by the sort, as any SQL engine may). -/
def rankedFor (obs : List Obs) (t : String) : List Obs :=
  List.insertionSort byDatetimeDesc (closesFor obs t)

/-- One output row of the ranked CTE. -/
structure RankedRow where
  ticker : String
  datetime : Nat
  close : Rat
  prev_close : Option Rat
  rn : Nat
deriving DecidableEq, Repr

/-- Walks one partition in window order computing ROW_NUMBER (rn, counted
    from 1) and LAG(Value) (the Value of the row one position earlier in the
    same Datetime DESC order; NULL at the first row of the partition). -/
def rankedRowsAux (t : String) : Nat → Option Rat → List Obs → List RankedRow
  | _, _, [] => []
  | rn, prev, o :: rest =>
    { ticker := t, datetime := o.datetime, close := o.value,
      prev_close := prev, rn := rn }
      :: rankedRowsAux t (rn + 1) (some o.value) rest

def rankedRowsFor (obs : List Obs) (t : String) : List RankedRow :=
  rankedRowsAux t 1 none (rankedFor obs t)

/-- A row of the latest CTE, carried into the SELECT list. -/
structure LatestRow where
  ticker : String
  last_updated : Nat
  close : Rat
  prev_close : Option Rat
deriving DecidableEq, Repr

/-- latest AS (SELECT * FROM ranked WHERE rn = 1), for one ticker. -/
def latestFor (obs : List Obs) (t : String) : Option LatestRow :=
  match (rankedRowsFor obs t).filter (fun r => r.rn == 1) with
  | [] => none
  | r :: _ => some { ticker := r.ticker, last_updated := r.datetime,
                     close := r.close, prev_close := r.prev_close }

/-- The tickers owning a partition of the ranked CTE. -/
def closeTickers (obs : List Obs) : List String :=
  ((obs.filter fun o => o.price == "Close").map (fun o => o.ticker)).dedup

/-- The latest CTE: one row per ticker having at least one Close row. -/
def latestRows (obs : List Obs) : List LatestRow :=
  (closeTickers obs).filterMap (latestFor obs)

/-- l.close BETWEEN w.zone_low AND w.zone_high, on non-NULL operands. -/
def inZoneB (low high c : Rat) : Bool :=
  decide (low ≤ c) && decide (c ≤ high)

/-- The zone_status CASE expression of the SELECT list.  A NULL close makes
    every WHEN condition NULL, so the ELSE branch fires. -/
def zoneStatusOf (low high : Rat) (close : Option Rat) : String :=
  match close with
  | none => "No data"
  | some c =>
    if inZoneB low high c then "In zone"
    else if c < low then "Below"
    else if c > high then "Above"
    else "No data"

/-- The crossed_today CASE expression: TRUE when close is in zone and
    prev_close is NULL or out of zone, ELSE FALSE (NULL close gives FALSE). -/
def crossedTodayOf (low high : Rat) (close prev : Option Rat) : Bool :=
  match close with
  | none => false
  | some c =>
    inZoneB low high c &&
      (match prev with
       | none => true
       | some p => !(inZoneB low high p))

/-- The pct_change CASE expression: NULL when prev_close is NULL or zero,
    otherwise (close - prev_close) / prev_close * 100. -/
def pctChangeOf (close prev : Option Rat) : Option Rat :=
  match prev with
  | none => none
  | some p => if p = 0 then none else close.map (fun c => (c - p) / p * 100)

/-- One output row of the dashboard query's SELECT list. -/
structure DashRow where
  ticker : String
  currency : String
  zone_low : Rat
  zone_high : Rat
  notify_on_cross : Bool
  cooloff_days : Int
  tags : String
  notes : String
  last_updated : Option Nat
  close_now : Option Rat
  close_prev : Option Rat
  pct_change : Option Rat
  zone_status : String
  crossed_today : Bool
deriving DecidableEq, Repr

/-- The SELECT list applied to a watchlist row w and its (possibly absent)
    matching latest row l; an absent match is the all-NULL right side of the
    LEFT JOIN. -/
def mkDashRow (w : WatchItem) (l : Option LatestRow) : DashRow :=
  { ticker := w.ticker, currency := w.currency, zone_low := w.zone_low,
    zone_high := w.zone_high, notify_on_cross := w.notify_on_cross,
    cooloff_days := w.cooloff_days, tags := w.tags, notes := w.notes,
    last_updated := l.map (fun x => x.last_updated),
    close_now := l.map (fun x => x.close),
    close_prev := l.bind (fun x => x.prev_close),
    pct_change := pctChangeOf (l.map (fun x => x.close))
      (l.bind (fun x => x.prev_close)),
    zone_status := zoneStatusOf w.zone_low w.zone_high (l.map (fun x => x.close)),
    crossed_today := crossedTodayOf w.zone_low w.zone_high
      (l.map (fun x => x.close)) (l.bind (fun x => x.prev_close)) }

/-- LEFT JOIN latest l ON l.ticker = w.ticker: one output row per matching
    latest row, or a single row with a NULL right side when none matches. -/
def leftJoinRow (w : WatchItem) (ls : List LatestRow) : List DashRow :=
  match ls.filter (fun l => l.ticker == w.ticker) with
  | [] => [mkDashRow w none]
  | ms => ms.map (fun l => mkDashRow w (some l))

/-- The dashboard query of load_dashboard_rows (src/app/dashboard.py,
    parquet branch), over the observation rows and the watchlist rows. -/
def load_dashboard_rows (obs : List Obs) (watchlist : List WatchItem) :
    List DashRow :=
  (watchlist.map (fun w => leftJoinRow w (latestRows obs))).flatten

/- ## Watchlist reconciler (src/core/watchlist.py) -/

/-- The GROUP BY ticker aggregation of sync_watchlist_replace, for one
    ticker: ANY_VALUE picks a value of the group (modelled as the first in
    insertion order), BOOL_OR(notify_on_cross) is the disjunction over the
    group, MAX(cooloff_days) the maximum over the group. -/
def mergeFor (items : List WatchItem) (t : String) : Option DbRow :=
  match items.filter (fun it => it.ticker == t) with
  | [] => none
  | w :: rest => some
    { ticker := t, currency := w.currency, zone_low := w.zone_low,
      zone_high := w.zone_high,
      notify_on_cross := (w :: rest).any (fun it => it.notify_on_cross),
      cooloff_days := (rest.map (fun it => it.cooloff_days)).foldl max w.cooloff_days,
      tags := w.tags, notes := w.notes }

/-- INSERT INTO watchlist SELECT ... FROM tmp_watchlist GROUP BY ticker:
    one merged row per distinct declared ticker. -/
def mergedRows (items : List WatchItem) : List DbRow :=
  ((items.map (fun it => it.ticker)).dedup).filterMap (mergeFor items)

/-- The FileNotFoundError raised by load_watchlist_yaml when the YAML file
    is absent. -/
inductive SyncError
  | fileNotFound
deriving DecidableEq, Repr

/-- load_watchlist_yaml: the parsed declared items when the file exists
    (the Option argument models path.exists()), an error otherwise. -/
def load_watchlist_yaml (cfg : Option (List WatchItem)) :
    Except SyncError (List WatchItem) :=
  match cfg with
  | none => Except.error SyncError.fileNotFound
  | some items => Except.ok items

/-- sync_watchlist_replace: connect and ensure_schema touch no watchlist
    row; load_watchlist_yaml runs before any write, so a load failure leaves
    the persisted rows untouched; on success DELETE FROM watchlist plus the
    grouped INSERT replace the table with the merged declared rows. -/
def sync_watchlist_replace (cfg : Option (List WatchItem)) (db : List DbRow) :
    Except SyncError Unit × List DbRow :=
  match load_watchlist_yaml cfg with
  | Except.error e => (Except.error e, db)
  | Except.ok items => (Except.ok (), mergedRows items)

/- ## View builder (src/jobs/build_views.py) -/

/-- DuckDB column types occurring in the two CREATE VIEW branches. -/
inductive ColType
  | text
  | date
  | double
  | timestamp
deriving DecidableEq, Repr

/-- One hive partition file under data/prices: the Ticker and Date path
    keys plus the stored rows (whose own columns are Datetime, Price,
    Value). -/
structure PartitionFile where
  ticker : String
  date : String
  rows : List Obs
deriving DecidableEq, Repr

/-- The schema of SELECT * FROM read_parquet over the lake written by
    fetch_daily.py: the file columns Datetime, Price, Value plus the two
    hive partition keys Ticker and Date (read back as strings). -/
def parquetViewSchema : List (String × ColType) :=
  [("Datetime", ColType.timestamp), ("Price", ColType.text),
   ("Value", ColType.double), ("Ticker", ColType.text),
   ("Date", ColType.text)]

/-- The fixed empty-lake schema: CAST(NULL AS TEXT) AS ticker,
    CAST(NULL AS DATE) AS date, CAST(NULL AS DOUBLE) AS close WHERE 1=0. -/
def emptyViewSchema : List (String × ColType) :=
  [("ticker", ColType.text), ("date", ColType.date), ("close", ColType.double)]

/-- A built view: its column schema and its rows. -/
structure SqlView where
  schema : List (String × ColType)
  rows : List Obs
deriving DecidableEq, Repr

/-- The v_prices view of build_views.main: over zero partition files the
    fixed empty schema with no rows, otherwise SELECT * over the lake. -/
def buildPricesView (files : List PartitionFile) : SqlView :=
  if files.isEmpty then
    { schema := emptyViewSchema, rows := [] }
  else
    { schema := parquetViewSchema, rows := (files.map (fun f => f.rows)).flatten }

/- ## Materialization refresh (build_views.main, second execute call)

   CREATE TABLE IF NOT EXISTS prices AS SELECT * FROM v_prices WHERE 1=0;
   DELETE FROM prices;
   INSERT INTO prices SELECT * FROM v_prices;

   The three statements are separate auto-committed statements (no BEGIN /
   COMMIT around them, unlike the swap in watchlist.py), so each statement
   boundary is an observable state. -/

inductive RefreshStep
  | createIfNotExists
  | deleteAll
  | insertFromView
deriving DecidableEq, Repr

/-- Effect of one statement on the materialized prices table (none = the
    table does not exist yet). -/
def applyStep (view : List Obs) (tbl : Option (List Obs)) :
    RefreshStep → Option (List Obs)
  | RefreshStep.createIfNotExists => some (tbl.getD [])
  | RefreshStep.deleteAll => tbl.map (fun _ => [])
  | RefreshStep.insertFromView => tbl.map (fun rows => rows ++ view)

/-- The statement sequence of the refresh, in source order. -/
def refreshStatements : List RefreshStep :=
  [RefreshStep.createIfNotExists, RefreshStep.deleteAll,
   RefreshStep.insertFromView]

/-- A completed refresh run. -/
def runRefresh (view : List Obs) (tbl : Option (List Obs)) :
    Option (List Obs) :=
  refreshStatements.foldl (applyStep view) tbl

/-- A refresh interrupted after its first k statements: the state a reader
    observes at that statement boundary. -/
def runRefreshSteps (view : List Obs) (tbl : Option (List Obs)) (k : Nat) :
    Option (List Obs) :=
  (refreshStatements.take k).foldl (applyStep view) tbl

/- ## Alert query (src/app/alerts.py)

   The query names columns ticker, date, close of v_prices.  DuckDB binds
   identifiers case-insensitively, so a referenced name resolves when some
   schema column matches it up to case. -/

/-- ASCII lower-casing of one character (identifier folding). -/
def lowerChar (c : Char) : Char :=
  if 65 ≤ c.toNat ∧ c.toNat ≤ 90 then Char.ofNat (c.toNat + 32) else c

/-- ASCII lower-casing of an identifier. -/
def lowerName (s : String) : String :=
  String.mk (s.data.map lowerChar)

def resolvesColumn (schema : List (String × ColType)) (c : String) : Bool :=
  schema.any (fun col => lowerName col.fst == lowerName c)

/-- The v_prices columns referenced by the SQL of src/app/alerts.py. -/
def alertsReferencedColumns : List String := ["ticker", "date", "close"]

/-- Whether every column reference of the alert query binds against the
    view's schema. -/
def alertsQueryBinds (v : SqlView) : Bool :=
  alertsReferencedColumns.all (resolvesColumn v.schema)

/- ## Helper lemmas -/

theorem rankedRowsAux_filter_rn_one (t : String) :
    ∀ (L : List Obs) (rn : Nat) (prev : Option Rat), 2 ≤ rn →
      (rankedRowsAux t rn prev L).filter (fun r => r.rn == 1) = [] := by
  intro L
  induction L with
  | nil => intro rn prev _; rfl
  | cons o rest ih =>
    intro rn prev hrn
    have hne : (rn == 1) = false := beq_false_of_ne (by omega)
    simp only [rankedRowsAux, List.filter_cons, hne]
    exact ih (rn + 1) (some o.value) (by omega)

theorem latestFor_of_nil {obs : List Obs} {t : String}
    (h : rankedFor obs t = []) : latestFor obs t = none := by
  unfold latestFor rankedRowsFor
  rw [h]
  rfl

theorem latestFor_of_cons {obs : List Obs} {t : String} {o : Obs} {rest : List Obs}
    (h : rankedFor obs t = o :: rest) :
    latestFor obs t =
      some { ticker := t, last_updated := o.datetime, close := o.value,
             prev_close := none } := by
  unfold latestFor rankedRowsFor
  rw [h]
  simp only [rankedRowsAux, List.filter_cons]
  rw [rankedRowsAux_filter_rn_one t rest 2 (some o.value) (by omega)]
  rfl

theorem latestFor_ticker {obs : List Obs} {t : String} {l : LatestRow}
    (h : latestFor obs t = some l) : l.ticker = t := by
  cases hr : rankedFor obs t with
  | nil => rw [latestFor_of_nil hr] at h; cases h
  | cons o rest =>
    rw [latestFor_of_cons hr] at h
    cases h
    rfl

theorem mem_closeTickers_of_closesFor_ne_nil {obs : List Obs} {t : String}
    (h : closesFor obs t ≠ []) : t ∈ closeTickers obs := by
  rcases List.exists_mem_of_ne_nil _ h with ⟨o, ho⟩
  rw [closesFor, List.mem_filter] at ho
  obtain ⟨hmem, hp⟩ := ho
  rw [Bool.and_eq_true, beq_iff_eq, beq_iff_eq] at hp
  unfold closeTickers
  rw [List.mem_dedup, List.mem_map]
  refine ⟨o, ?_, hp.2⟩
  rw [List.mem_filter, beq_iff_eq]
  exact ⟨hmem, hp.1⟩

theorem latestFor_of_not_mem {obs : List Obs} {t : String}
    (h : t ∉ closeTickers obs) : latestFor obs t = none := by
  have hc : closesFor obs t = [] := by
    by_contra hne
    exact h (mem_closeTickers_of_closesFor_ne_nil hne)
  apply latestFor_of_nil
  unfold rankedFor
  rw [hc]
  rfl

/-- Filtering a keyed filterMap by one key value, over a duplicate-free key
    list, leaves exactly the image of that key. -/
theorem filterMap_key_filter {α : Type} (key : α → String) (f : String → Option α)
    (hf : ∀ t r, f t = some r → key r = t) (t : String) :
    ∀ L : List String, L.Nodup →
      (L.filterMap f).filter (fun r => key r == t) =
        if t ∈ L then (f t).toList else [] := by
  intro L
  induction L with
  | nil => intro _; simp
  | cons a L ih =>
    intro hnd
    rw [List.nodup_cons] at hnd
    obtain ⟨ha, hL⟩ := hnd
    by_cases hta : t = a
    · subst hta
      cases hfa : f t with
      | none =>
        rw [List.filterMap_cons_none hfa, ih hL, if_neg ha]
        simp [hfa]
      | some r =>
        have hkey : key r = t := hf t r hfa
        have hb : (key r == t) = true := by rw [beq_iff_eq]; exact hkey
        rw [List.filterMap_cons_some hfa, List.filter_cons, ih hL]
        simp [hb, ha]
    · cases hfa : f a with
      | none =>
        rw [List.filterMap_cons_none hfa, ih hL]
        simp [List.mem_cons, hta]
      | some r =>
        have hkey : key r = a := hf a r hfa
        have hb : (key r == t) = false := by
          apply beq_false_of_ne
          rw [hkey]
          exact fun h => hta h.symm
        rw [List.filterMap_cons_some hfa, List.filter_cons, ih hL]
        simp [hb, List.mem_cons, hta]

theorem mem_of_mem_filterMap_key {α : Type} {key : α → String}
    {f : String → Option α} (hf : ∀ t r, f t = some r → key r = t)
    {L : List String} {x : String}
    (hx : x ∈ (L.filterMap f).map key) : x ∈ L := by
  rw [List.mem_map] at hx
  obtain ⟨r, hr, hkr⟩ := hx
  rw [List.mem_filterMap] at hr
  obtain ⟨t2, ht2, hft2⟩ := hr
  have := hf t2 r hft2
  rw [← hkr, this]
  exact ht2

theorem filterMap_key_nodup {α : Type} (key : α → String) (f : String → Option α)
    (hf : ∀ t r, f t = some r → key r = t) :
    ∀ L : List String, L.Nodup → ((L.filterMap f).map key).Nodup := by
  intro L
  induction L with
  | nil => intro _; exact List.nodup_nil
  | cons a L ih =>
    intro hnd
    rw [List.nodup_cons] at hnd
    obtain ⟨ha, hL⟩ := hnd
    cases hfa : f a with
    | none => rw [List.filterMap_cons_none hfa]; exact ih hL
    | some r =>
      rw [List.filterMap_cons_some hfa, List.map_cons, List.nodup_cons]
      refine ⟨?_, ih hL⟩
      intro hmem
      rw [hf a r hfa] at hmem
      exact ha (mem_of_mem_filterMap_key hf hmem)

theorem latestRows_filter (obs : List Obs) (t : String) :
    (latestRows obs).filter (fun l => l.ticker == t) = (latestFor obs t).toList := by
  unfold latestRows
  rw [filterMap_key_filter (fun l => l.ticker) (latestFor obs)
    (fun t2 r h => latestFor_ticker h) t (closeTickers obs)
    (List.nodup_dedup _)]
  by_cases hmem : t ∈ closeTickers obs
  · rw [if_pos hmem]
  · rw [if_neg hmem, latestFor_of_not_mem hmem]
    rfl

theorem leftJoinRow_eq (obs : List Obs) (w : WatchItem) :
    leftJoinRow w (latestRows obs) = [mkDashRow w (latestFor obs w.ticker)] := by
  unfold leftJoinRow
  rw [latestRows_filter obs w.ticker]
  cases latestFor obs w.ticker with
  | none => rfl
  | some l => rfl

theorem load_dashboard_rows_eq (obs : List Obs) (wl : List WatchItem) :
    load_dashboard_rows obs wl =
      wl.map (fun w => mkDashRow w (latestFor obs w.ticker)) := by
  induction wl with
  | nil => rfl
  | cons w wl ih =>
    unfold load_dashboard_rows at ih ⊢
    rw [List.map_cons, List.flatten_cons, leftJoinRow_eq, ih, List.map_cons,
      List.singleton_append]

/- Lemmas about the zone_status CASE expression. -/

theorem zoneStatusOf_eq_in_zone (low high : Rat) (x : Option Rat) :
    zoneStatusOf low high x = "In zone" ↔
      ∃ c, x = some c ∧ low ≤ c ∧ c ≤ high := by
  cases x with
  | none => simp [zoneStatusOf]
  | some c =>
    simp only [zoneStatusOf]
    split_ifs with h1 h2 h3
    · constructor
      · intro _
        rw [inZoneB, Bool.and_eq_true, decide_eq_true_eq, decide_eq_true_eq] at h1
        exact ⟨c, rfl, h1.1, h1.2⟩
      · intro _; rfl
    all_goals
      constructor
    all_goals
      first
      | (intro h; exact absurd h (by decide))
      | (rintro ⟨c2, hc2, hl, hh⟩
         cases hc2
         exact absurd (by simp [inZoneB, hl, hh] : inZoneB low high c = true) h1)

theorem zoneStatusOf_eq_below (low high : Rat) (x : Option Rat) :
    zoneStatusOf low high x = "Below" ↔ ∃ c, x = some c ∧ c < low := by
  cases x with
  | none => simp [zoneStatusOf]
  | some c =>
    simp only [zoneStatusOf]
    split_ifs with h1 h2 h3
    · rw [inZoneB, Bool.and_eq_true, decide_eq_true_eq, decide_eq_true_eq] at h1
      constructor
      · intro h; exact absurd h (by decide)
      · rintro ⟨c2, hc2, hl⟩
        cases hc2
        exact absurd hl (by simp only [not_lt]; exact h1.1)
    · constructor
      · intro _; exact ⟨c, rfl, h2⟩
      · intro _; rfl
    all_goals
      constructor
    all_goals
      first
      | (intro h; exact absurd h (by decide))
      | (rintro ⟨c2, hc2, hl⟩; cases hc2; exact absurd hl h2)

theorem zoneStatusOf_eq_above {low high : Rat} (hband : low ≤ high)
    (x : Option Rat) :
    zoneStatusOf low high x = "Above" ↔ ∃ c, x = some c ∧ high < c := by
  cases x with
  | none => simp [zoneStatusOf]
  | some c =>
    simp only [zoneStatusOf]
    split_ifs with h1 h2 h3
    · rw [inZoneB, Bool.and_eq_true, decide_eq_true_eq, decide_eq_true_eq] at h1
      constructor
      · intro h; exact absurd h (by decide)
      · rintro ⟨c2, hc2, hh⟩
        cases hc2
        exact absurd hh (by simp only [not_lt]; exact h1.2)
    · constructor
      · intro h; exact absurd h (by decide)
      · rintro ⟨c2, hc2, hh⟩
        cases hc2
        exact absurd hh (by simp only [not_lt]; linarith)
    · constructor
      · intro _; exact ⟨c, rfl, h3⟩
      · intro _; rfl
    · constructor
      · intro h; exact absurd h (by decide)
      · rintro ⟨c2, hc2, hh⟩
        cases hc2
        exact absurd hh h3

theorem zoneStatusOf_eq_no_data (low high : Rat) (x : Option Rat) :
    zoneStatusOf low high x = "No data" ↔ x = none := by
  cases x with
  | none => simp [zoneStatusOf]
  | some c =>
    simp only [zoneStatusOf]
    split_ifs with h1 h2 h3
    all_goals
      first
      | (constructor
         · intro h; exact absurd h (by decide)
         · intro h; exact absurd h (by simp))
      | (exfalso
         rw [not_lt] at h2 h3
         exact absurd (by simp [inZoneB, h2, h3] : inZoneB low high c = true) h1)

/- Lemmas about the GROUP BY merge of sync_watchlist_replace. -/

theorem mergeFor_ticker {items : List WatchItem} {t : String} {r : DbRow}
    (h : mergeFor items t = some r) : r.ticker = t := by
  unfold mergeFor at h
  cases hf : items.filter (fun it => it.ticker == t) with
  | nil => rw [hf] at h; cases h
  | cons w rest => rw [hf] at h; cases h; rfl

theorem mergeFor_eq_none {items : List WatchItem} {t : String}
    (h : t ∉ items.map (fun it => it.ticker)) : mergeFor items t = none := by
  have hfil : items.filter (fun it => it.ticker == t) = [] := by
    rw [List.filter_eq_nil_iff]
    intro it hit hbeq
    rw [beq_iff_eq] at hbeq
    exact h (List.mem_map.mpr ⟨it, hit, hbeq⟩)
  unfold mergeFor
  rw [hfil]

theorem mergeFor_isSome {items : List WatchItem} {t : String}
    (h : t ∈ items.map (fun it => it.ticker)) :
    ∃ r, mergeFor items t = some r := by
  obtain ⟨it, hit, heq⟩ := List.mem_map.mp h
  have hmem : it ∈ items.filter (fun it => it.ticker == t) := by
    rw [List.mem_filter, beq_iff_eq]
    exact ⟨hit, heq⟩
  unfold mergeFor
  cases hf : items.filter (fun it => it.ticker == t) with
  | nil => rw [hf] at hmem; cases hmem
  | cons w rest => exact ⟨_, rfl⟩

theorem mergedRows_filter (items : List WatchItem) (t : String) :
    (mergedRows items).filter (fun r => r.ticker == t) =
      (mergeFor items t).toList := by
  unfold mergedRows
  rw [filterMap_key_filter (fun r => r.ticker) (mergeFor items)
    (fun _ _ h => mergeFor_ticker h) t _ (List.nodup_dedup _)]
  by_cases hmem : t ∈ (items.map (fun it => it.ticker)).dedup
  · rw [if_pos hmem]
  · rw [if_neg hmem,
      mergeFor_eq_none (fun hc => hmem (List.mem_dedup.mpr hc))]
    rfl

theorem mergedRows_ticker_nodup (items : List WatchItem) :
    ((mergedRows items).map (fun r => r.ticker)).Nodup :=
  filterMap_key_nodup _ _ (fun _ _ h => mergeFor_ticker h) _
    (List.nodup_dedup _)

theorem mem_mergedRows_ticker (items : List WatchItem) (t : String) :
    t ∈ (mergedRows items).map (fun r => r.ticker) ↔
      t ∈ items.map (fun it => it.ticker) := by
  constructor
  · intro h
    exact List.mem_dedup.mp
      (mem_of_mem_filterMap_key (fun _ _ h2 => mergeFor_ticker h2) h)
  · intro h
    obtain ⟨r, hr⟩ := mergeFor_isSome h
    rw [List.mem_map]
    exact ⟨r, List.mem_filterMap.mpr ⟨t, List.mem_dedup.mpr h, hr⟩,
      mergeFor_ticker hr⟩

theorem filter_eq_singleton_of_nodup :
    ∀ (items : List WatchItem),
      (items.map (fun it => it.ticker)).Nodup →
      ∀ it ∈ items, items.filter (fun x => x.ticker == it.ticker) = [it] := by
  intro items
  induction items with
  | nil => intro _ it hit; cases hit
  | cons a items ih =>
    intro hnd it hit
    rw [List.map_cons, List.nodup_cons] at hnd
    obtain ⟨ha, hnd⟩ := hnd
    rw [List.filter_cons]
    cases List.mem_cons.mp hit with
    | inl heq =>
      subst heq
      rw [if_pos (beq_self_eq_true it.ticker)]
      have hnil : items.filter (fun x => x.ticker == it.ticker) = [] := by
        rw [List.filter_eq_nil_iff]
        intro x hx hbeq
        rw [beq_iff_eq] at hbeq
        exact ha (List.mem_map.mpr ⟨x, hx, hbeq⟩)
      rw [hnil]
    | inr hmem =>
      have hne : (a.ticker == it.ticker) = false := by
        apply beq_false_of_ne
        intro he
        exact ha (he ▸ List.mem_map.mpr ⟨it, hmem, rfl⟩)
      rw [if_neg (by rw [hne]; exact Bool.false_ne_true)]
      exact ih hnd it hmem

/- Maximum via foldl, as computed by MAX(cooloff_days). -/

theorem le_foldl_max : ∀ (l : List Int) (a : Int), a ≤ l.foldl max a := by
  intro l
  induction l with
  | nil => intro a; exact le_refl a
  | cons x xs ih =>
    intro a
    calc a ≤ max a x := le_max_left a x
    _ ≤ xs.foldl max (max a x) := ih (max a x)

theorem foldl_max_le_of_mem {x : Int} :
    ∀ (l : List Int) (a : Int), x ∈ l → x ≤ l.foldl max a := by
  intro l
  induction l with
  | nil => intro a h; cases h
  | cons y ys ih =>
    intro a h
    cases List.mem_cons.mp h with
    | inl he =>
      subst he
      calc x ≤ max a x := le_max_right a x
      _ ≤ ys.foldl max (max a x) := le_foldl_max ys (max a x)
    | inr hm => exact ih (max a y) hm

theorem foldl_max_mem :
    ∀ (l : List Int) (a : Int), l.foldl max a = a ∨ l.foldl max a ∈ l := by
  intro l
  induction l with
  | nil => intro a; exact Or.inl rfl
  | cons y ys ih =>
    intro a
    rw [List.foldl_cons]
    rcases ih (max a y) with h | h
    · rw [h]
      rcases max_choice a y with hm | hm
      · exact Or.inl hm
      · exact Or.inr (by rw [hm]; exact List.mem_cons_self y ys)
    · exact Or.inr (List.mem_cons_of_mem y h)

/- ## Concrete fixtures for the claim instances -/

def obsA : List Obs :=
  [{ ticker := "A", datetime := 1, date := "2024-01-01", price := "Close",
     value := 10 },
   { ticker := "A", datetime := 2, date := "2024-01-01", price := "Close",
     value := 20 }]

def wlA : List WatchItem :=
  [{ ticker := "A", currency := "USD", zone_low := 100, zone_high := 110,
     notify_on_cross := true, cooloff_days := 1, tags := "", notes := "" }]

def obsB : List Obs :=
  [{ ticker := "B", datetime := 1, date := "2024-01-01", price := "Close",
     value := 102 },
   { ticker := "B", datetime := 2, date := "2024-01-01", price := "Close",
     value := 103 }]

def wlB : List WatchItem :=
  [{ ticker := "B", currency := "USD", zone_low := 100, zone_high := 110,
     notify_on_cross := true, cooloff_days := 1, tags := "", notes := "" }]

/- ## Claims C1 and C2 -/

/-- Claim C1: close_now should be the Close value with the latest datetime
    and close_prev the value with the second-latest (rank 2).  The code
    refutes the close_prev half: LAG(Value) runs over the same
    Datetime DESC order used for ROW_NUMBER, so at the rank-1 row kept by
    the latest CTE it has no preceding row and close_prev is NULL; with two
    Close observations (values 10 then 20) close_now is 20 as claimed but
    close_prev is NULL instead of 10. -/
theorem C1_close_prev_is_always_null :
    (load_dashboard_rows obsA wlA).map (fun r => (r.close_now, r.close_prev)) =
      [(some (20 : Rat), (none : Option Rat))] ∧
    (load_dashboard_rows obsA wlA).map (fun r => r.close_prev) ≠
      [some (10 : Rat)] := by
  constructor
  · decide
  · decide

/-- Claim C2: crossed_today on the Close sequence [102, 103] with zone
    [100, 110] should be false (already in zone before).  The code refutes
    this: close_prev is NULL (the LAG slip of C1), so the
    "prev_close IS NULL" disjunct fires and crossed_today is true. -/
theorem C2_crossed_today_true_on_102_103 :
    (load_dashboard_rows obsB wlB).map
        (fun r => (r.close_now, r.close_prev, r.crossed_today)) =
      [(some (103 : Rat), (none : Option Rat), true)] ∧
    (load_dashboard_rows obsB wlB).map (fun r => r.crossed_today) ≠
      [false] := by
  constructor
  · decide
  · decide

/- ## Claim C3 -/

/-- Claim C3: the dashboard emits exactly one row per watchlist instrument
    (left-join semantics), zone_status is classified from close_now against
    the band ('Above' stated under the §3 band invariant
    zone_low ≤ zone_high), and an instrument with no observation gets NULL
    close_now, close_prev and pct_change. -/
theorem C3_left_join_zone_status (obs : List Obs) (wl : List WatchItem) :
    ((load_dashboard_rows obs wl).map (fun r => r.ticker) =
      wl.map (fun w => w.ticker)) ∧
    ∀ r ∈ load_dashboard_rows obs wl,
      (r.zone_status = "In zone" ↔
        ∃ c, r.close_now = some c ∧ r.zone_low ≤ c ∧ c ≤ r.zone_high) ∧
      (r.zone_status = "Below" ↔ ∃ c, r.close_now = some c ∧ c < r.zone_low) ∧
      (r.zone_low ≤ r.zone_high →
        (r.zone_status = "Above" ↔
          ∃ c, r.close_now = some c ∧ r.zone_high < c)) ∧
      (r.zone_status = "No data" ↔ r.close_now = none) ∧
      (r.close_now = none → r.close_prev = none ∧ r.pct_change = none) := by
  constructor
  · rw [load_dashboard_rows_eq, List.map_map]
    rfl
  · intro r hr
    rw [load_dashboard_rows_eq, List.mem_map] at hr
    obtain ⟨w, hw, rfl⟩ := hr
    simp only [mkDashRow]
    refine ⟨zoneStatusOf_eq_in_zone _ _ _, zoneStatusOf_eq_below _ _ _,
      fun hband => zoneStatusOf_eq_above hband _,
      zoneStatusOf_eq_no_data _ _ _, ?_⟩
    intro hnone
    rw [Option.map_eq_none'] at hnone
    rw [hnone]
    exact ⟨rfl, rfl⟩

def obsW3 : List Obs :=
  [{ ticker := "W", datetime := 5, date := "2024-01-03", price := "Close",
     value := 120 }]

def wlW3 : List WatchItem :=
  [{ ticker := "W", currency := "USD", zone_low := 100, zone_high := 110,
     notify_on_cross := true, cooloff_days := 1, tags := "", notes := "" }]

def rW3 : DashRow :=
  { ticker := "W", currency := "USD", zone_low := 100, zone_high := 110,
    notify_on_cross := true, cooloff_days := 1, tags := "", notes := "",
    last_updated := some 5, close_now := some 120, close_prev := none,
    pct_change := none, zone_status := "Above", crossed_today := false }

/-- Witness for C3 at a concrete input: a single instrument whose only
    Close (120) is above the band [100, 110]. -/
theorem C3_left_join_zone_status_witness :
    ((load_dashboard_rows obsW3 wlW3).map (fun r => r.ticker) =
      wlW3.map (fun w => w.ticker)) ∧
    (rW3.zone_status = "Above" ↔
      ∃ c, rW3.close_now = some c ∧ rW3.zone_high < c) :=
  ⟨(C3_left_join_zone_status obsW3 wlW3).1,
   ((C3_left_join_zone_status obsW3 wlW3).2 rW3 (by decide)).2.2.1 (by decide)⟩

/- ## Claim C10 -/

/-- Claim C10: for a misordered band (zone_low > zone_high) the classifier
    never outputs 'In zone' for any row, and a close simultaneously below
    zone_low and above zone_high is classified 'Below' — the Below branch
    of the CASE takes priority over Above. -/
theorem C10_misordered_band (obs : List Obs) (wl : List WatchItem) :
    ∀ r ∈ load_dashboard_rows obs wl,
      (r.zone_high < r.zone_low → r.zone_status ≠ "In zone") ∧
      (∀ c, r.close_now = some c → c < r.zone_low → r.zone_high < c →
        r.zone_status = "Below") := by
  intro r hr
  rw [load_dashboard_rows_eq, List.mem_map] at hr
  obtain ⟨w, hw, rfl⟩ := hr
  simp only [mkDashRow]
  constructor
  · intro hband hstatus
    obtain ⟨c, _, hl, hh⟩ := (zoneStatusOf_eq_in_zone _ _ _).mp hstatus
    linarith
  · intro c hc hlow _
    exact (zoneStatusOf_eq_below _ _ _).mpr ⟨c, hc, hlow⟩

def obsW10 : List Obs :=
  [{ ticker := "M", datetime := 1, date := "2024-01-01", price := "Close",
     value := 105 }]

def wlW10 : List WatchItem :=
  [{ ticker := "M", currency := "USD", zone_low := 110, zone_high := 100,
     notify_on_cross := true, cooloff_days := 1, tags := "", notes := "" }]

def rW10 : DashRow :=
  { ticker := "M", currency := "USD", zone_low := 110, zone_high := 100,
    notify_on_cross := true, cooloff_days := 1, tags := "", notes := "",
    last_updated := some 1, close_now := some 105, close_prev := none,
    pct_change := none, zone_status := "Below", crossed_today := false }

/-- Witness for C10 at a concrete input: band [110, 100] (misordered) and a
    close of 105, which is below zone_low and above zone_high. -/
theorem C10_misordered_band_witness :
    rW10.zone_status ≠ "In zone" ∧ rW10.zone_status = "Below" :=
  ⟨(C10_misordered_band obsW10 wlW10 rW10 (by decide)).1 (by decide),
   (C10_misordered_band obsW10 wlW10 rW10 (by decide)).2 105 (by decide)
     (by decide) (by decide)⟩

/- ## Claim C4 -/

/-- The persisted row a declared item maps to when its ticker is unique in
    the declared input (ANY_VALUE, BOOL_OR and MAX over a one-element group
    are the item's own values). -/
def dbRowOf (it : WatchItem) : DbRow :=
  { ticker := it.ticker, currency := it.currency, zone_low := it.zone_low,
    zone_high := it.zone_high, notify_on_cross := it.notify_on_cross,
    cooloff_days := it.cooloff_days, tags := it.tags, notes := it.notes }

/-- Claim C4: after a successful sync the persisted tickers are exactly the
    declared tickers (one row per ticker, a removed ticker disappears), and
    with duplicate-free declared tickers every persisted row carries its
    declared item's fields. -/
theorem C4_exact_mirror (cfg : List WatchItem) (db : List DbRow) :
    (((sync_watchlist_replace (some cfg) db).2).map
        (fun r => r.ticker)).Nodup ∧
    (∀ t, t ∈ ((sync_watchlist_replace (some cfg) db).2).map
        (fun r => r.ticker) ↔ t ∈ cfg.map (fun it => it.ticker)) ∧
    ((cfg.map (fun it => it.ticker)).Nodup →
      ∀ it ∈ cfg, dbRowOf it ∈ (sync_watchlist_replace (some cfg) db).2) := by
  have hres : (sync_watchlist_replace (some cfg) db).2 = mergedRows cfg := rfl
  rw [hres]
  refine ⟨mergedRows_ticker_nodup cfg, fun t => mem_mergedRows_ticker cfg t, ?_⟩
  intro hnd it hit
  have hfil := filter_eq_singleton_of_nodup cfg hnd it hit
  have hsome : mergeFor cfg it.ticker = some (dbRowOf it) := by
    unfold mergeFor
    rw [hfil]
    simp [dbRowOf, Bool.or_false]
  exact List.mem_filterMap.mpr ⟨it.ticker,
    List.mem_dedup.mpr (List.mem_map.mpr ⟨it, hit, rfl⟩), hsome⟩

def itemX : WatchItem :=
  { ticker := "X", currency := "USD", zone_low := 1, zone_high := 2,
    notify_on_cross := true, cooloff_days := 1, tags := "", notes := "" }

def itemY : WatchItem :=
  { ticker := "Y", currency := "EUR", zone_low := 3, zone_high := 4,
    notify_on_cross := false, cooloff_days := 2, tags := "a", notes := "b" }

def cfgW4 : List WatchItem := [itemX, itemY]

/-- Witness for C4 at a concrete two-item configuration with distinct
    tickers. -/
theorem C4_exact_mirror_witness :
    (cfgW4.map (fun it => it.ticker)).Nodup ∧
    dbRowOf itemX ∈ (sync_watchlist_replace (some cfgW4) []).2 :=
  ⟨by decide, (C4_exact_mirror cfgW4 []).2.2 (by decide) itemX (by decide)⟩

/- ## Claim C5 -/

def dupCfg : List WatchItem :=
  [{ ticker := "AAPL", currency := "USD", zone_low := 100, zone_high := 110,
     notify_on_cross := false, cooloff_days := 1, tags := "t1",
     notes := "n1" },
   { ticker := "AAPL", currency := "EUR", zone_low := 90, zone_high := 120,
     notify_on_cross := true, cooloff_days := 3, tags := "t2",
     notes := "n2" }]

def dupMerged : DbRow :=
  { ticker := "AAPL", currency := "USD", zone_low := 100, zone_high := 110,
    notify_on_cross := true, cooloff_days := 3, tags := "t1", notes := "n1" }

/-- Claim C5: duplicate declared records for one ticker merge into exactly
    one persisted row whose notify_on_cross is the OR and cooloff_days the
    maximum over the duplicates, the remaining fields taken from some one
    duplicate; the notify {false, true} / cooloff {1, 3} example yields
    notify true and cooloff 3. -/
theorem C5_duplicate_merge :
    (∀ (cfg : List WatchItem) (db : List DbRow) (t : String),
      t ∈ cfg.map (fun it => it.ticker) →
      ∃ r, ((sync_watchlist_replace (some cfg) db).2).filter
          (fun x => x.ticker == t) = [r] ∧
        (r.notify_on_cross = true ↔
          ∃ it ∈ cfg.filter (fun it => it.ticker == t),
            it.notify_on_cross = true) ∧
        r.cooloff_days ∈ (cfg.filter (fun it => it.ticker == t)).map
          (fun it => it.cooloff_days) ∧
        (∀ it ∈ cfg.filter (fun it => it.ticker == t),
          it.cooloff_days ≤ r.cooloff_days) ∧
        r.currency ∈ (cfg.filter (fun it => it.ticker == t)).map
          (fun it => it.currency) ∧
        r.zone_low ∈ (cfg.filter (fun it => it.ticker == t)).map
          (fun it => it.zone_low) ∧
        r.zone_high ∈ (cfg.filter (fun it => it.ticker == t)).map
          (fun it => it.zone_high) ∧
        r.tags ∈ (cfg.filter (fun it => it.ticker == t)).map
          (fun it => it.tags) ∧
        r.notes ∈ (cfg.filter (fun it => it.ticker == t)).map
          (fun it => it.notes)) ∧
    (sync_watchlist_replace (some dupCfg) []).2 = [dupMerged] := by
  constructor
  · intro cfg db t ht
    obtain ⟨r, hr⟩ := mergeFor_isSome ht
    refine ⟨r, ?_, ?_⟩
    · have hres : (sync_watchlist_replace (some cfg) db).2 = mergedRows cfg :=
        rfl
      rw [hres, mergedRows_filter, hr]
      rfl
    · unfold mergeFor at hr
      cases hfil : cfg.filter (fun it => it.ticker == t) with
      | nil => rw [hfil] at hr; cases hr
      | cons w rest =>
        rw [hfil] at hr
        cases hr
        refine ⟨?_, ?_, ?_, ?_, ?_, ?_, ?_, ?_⟩
        · simp [List.any_eq_true]
        · rw [List.map_cons]
          rcases foldl_max_mem (rest.map (fun it => it.cooloff_days))
              w.cooloff_days with h | h
          · rw [h]; exact List.mem_cons_self _ _
          · exact List.mem_cons_of_mem _ h
        · intro it hit
          cases List.mem_cons.mp hit with
          | inl he =>
            subst he
            exact le_foldl_max _ _
          | inr hm =>
            exact foldl_max_le_of_mem _ _
              (List.mem_map.mpr ⟨it, hm, rfl⟩)
        · exact List.mem_map.mpr ⟨w, List.mem_cons_self _ _, rfl⟩
        · exact List.mem_map.mpr ⟨w, List.mem_cons_self _ _, rfl⟩
        · exact List.mem_map.mpr ⟨w, List.mem_cons_self _ _, rfl⟩
        · exact List.mem_map.mpr ⟨w, List.mem_cons_self _ _, rfl⟩
        · exact List.mem_map.mpr ⟨w, List.mem_cons_self _ _, rfl⟩
  · decide

/-- Witness for C5 at the concrete duplicate configuration of the claim:
    two AAPL records with notify {false, true} and cooloff {1, 3}. -/
theorem C5_duplicate_merge_witness :
    ∃ r, ((sync_watchlist_replace (some dupCfg) []).2).filter
        (fun x => x.ticker == "AAPL") = [r] ∧
      (r.notify_on_cross = true ↔
        ∃ it ∈ dupCfg.filter (fun it => it.ticker == "AAPL"),
          it.notify_on_cross = true) ∧
      r.cooloff_days ∈ (dupCfg.filter (fun it => it.ticker == "AAPL")).map
        (fun it => it.cooloff_days) ∧
      (∀ it ∈ dupCfg.filter (fun it => it.ticker == "AAPL"),
        it.cooloff_days ≤ r.cooloff_days) ∧
      r.currency ∈ (dupCfg.filter (fun it => it.ticker == "AAPL")).map
        (fun it => it.currency) ∧
      r.zone_low ∈ (dupCfg.filter (fun it => it.ticker == "AAPL")).map
        (fun it => it.zone_low) ∧
      r.zone_high ∈ (dupCfg.filter (fun it => it.ticker == "AAPL")).map
        (fun it => it.zone_high) ∧
      r.tags ∈ (dupCfg.filter (fun it => it.ticker == "AAPL")).map
        (fun it => it.tags) ∧
      r.notes ∈ (dupCfg.filter (fun it => it.ticker == "AAPL")).map
        (fun it => it.notes) :=
  C5_duplicate_merge.1 dupCfg [] "AAPL" (by decide)

/- ## Claim C6 -/

/-- Claim C6: with no configuration file, sync_watchlist_replace raises the
    not-found error (load_watchlist_yaml runs before any write) and the
    persisted watchlist rows are exactly what they were before the call. -/
theorem C6_config_not_found (db : List DbRow) :
    (sync_watchlist_replace none db).1 =
      Except.error SyncError.fileNotFound ∧
    (sync_watchlist_replace none db).2 = db :=
  ⟨rfl, rfl⟩

/- ## Claim C7 -/

/-- Claim C7: over zero partition files the view builder produces (without
    error — buildPricesView is total) an empty view with exactly the fixed
    schema ticker: text, date: date, close: double; every filter over its
    rows returns zero rows, the per-ticker latest aggregation is empty, and
    queries naming ticker / date / close all resolve. -/
theorem C7_empty_lake_view :
    (buildPricesView []).schema =
      [("ticker", ColType.text), ("date", ColType.date),
       ("close", ColType.double)] ∧
    (buildPricesView []).rows = [] ∧
    (∀ p : Obs → Bool, ((buildPricesView []).rows).filter p = []) ∧
    latestRows ((buildPricesView []).rows) = [] ∧
    alertsQueryBinds (buildPricesView []) = true :=
  ⟨rfl, rfl, fun _ => rfl, rfl, by decide⟩

/- ## Claim C8 -/

/-- Claim C8, amended: a completed materialization refresh is idempotent —
    it leaves the prices table holding exactly the view's rows whatever was
    there before, and re-running it changes nothing (no appended
    duplicates).  The single-unit-of-work half of the claim is refuted by
    the counterexample theorem below. -/
theorem C8_refresh_idempotent (view : List Obs) (tbl : Option (List Obs)) :
    runRefresh view tbl = some view ∧
    runRefresh view (runRefresh view tbl) = some view := by
  cases tbl with
  | none => exact ⟨rfl, rfl⟩
  | some rows => exact ⟨rfl, rfl⟩

def oldRowC8 : Obs :=
  { ticker := "OLD", datetime := 1, date := "2024-01-01", price := "Close",
    value := 1 }

def newRowC8 : Obs :=
  { ticker := "NEW", datetime := 2, date := "2024-01-02", price := "Close",
    value := 2 }

/-- Claim C8, counterexample to atomicity: the DELETE and INSERT of the
    refresh are separate auto-committed statements (no BEGIN/COMMIT in
    build_views.py, unlike watchlist.py), so a run interrupted after its
    second statement leaves the table observably empty — neither the old
    contents nor the full new contents. -/
theorem C8_interrupted_refresh_not_atomic :
    runRefreshSteps [newRowC8] (some [oldRowC8]) 2 = some [] ∧
    some ([] : List Obs) ≠ some [oldRowC8] ∧
    some ([] : List Obs) ≠ some [newRowC8] ∧
    runRefresh [newRowC8] (some [oldRowC8]) = some [newRowC8] :=
  ⟨rfl, by decide, by decide, rfl⟩

/- ## Claim C9 -/

def fileC9 : PartitionFile :=
  { ticker := "AAPL", date := "2024-01-02",
    rows := [{ ticker := "AAPL", datetime := 1, date := "2024-01-02",
               price := "Close", value := 101 }] }

/-- Claim C9: the alert query is supposed to evaluate the dashboard's
    crossing predicate on the latest two daily closes of notify_on_cross
    instruments.  The code refutes its runnability: on any non-empty lake
    v_prices has the raw observation schema (Datetime, Price, Value plus
    hive keys Ticker, Date), so the query's column reference close resolves
    against no column (ticker and date do resolve) and the query cannot
    bind — it only binds against the empty-lake placeholder schema. -/
theorem C9_alert_query_unbound_column :
    (buildPricesView [fileC9]).schema = parquetViewSchema ∧
    resolvesColumn (buildPricesView [fileC9]).schema "ticker" = true ∧
    resolvesColumn (buildPricesView [fileC9]).schema "date" = true ∧
    resolvesColumn (buildPricesView [fileC9]).schema "close" = false ∧
    alertsQueryBinds (buildPricesView [fileC9]) = false ∧
    alertsQueryBinds (buildPricesView []) = true := by
  refine ⟨rfl, ?_, ?_, ?_, ?_, ?_⟩ <;> decide

end Pyfinance
